import Mathlib

/-!
A shallow embedding of the TEI-to-ODF converter (`src/convert.py`) and proofs
about its parsing and rendering behaviour.

The embedding models an lxml element as `Xml`: a tag (local name), an
attribute association list, the text appearing before the first child
(`text`, `none` when the Python value is `None`), the ordered list of child
elements, and the text following the element inside its parent (`tail`).
Python strings are Lean `String`s, `None`-able strings are `Option String`,
and Python exceptions are modelled with `Except Unit`.
-/

namespace TeiToOdf

/-- An XML element as exposed by lxml: local tag name, attributes,
`text` (text before the first child, `none` for Python `None`),
children in document order, and `tail` (text after the element). -/
inductive Xml where
  | elem (tag : String) (attrs : List (String × String))
         (text : Option String) (children : List Xml) (tail : Option String)

/-- Local tag name (models `etree.QName(elem).localname`). -/
def Xml.tag : Xml → String
  | .elem t _ _ _ _ => t

/-- Attribute list of the element. -/
def Xml.attrs : Xml → List (String × String)
  | .elem _ a _ _ _ => a

/-- `elem.text`: text before the first child. -/
def Xml.text : Xml → Option String
  | .elem _ _ t _ _ => t

/-- Child elements in document order. -/
def Xml.children : Xml → List Xml
  | .elem _ _ _ cs _ => cs

/-- `elem.tail`: text after the element, inside its parent. -/
def Xml.tail : Xml → Option String
  | .elem _ _ _ _ t => t

/-- `elem.get(key)`: first attribute value for `key`, if any. -/
def Xml.getAttr (x : Xml) (key : String) : Option String :=
  (x.attrs.find? (fun p => p.1 == key)).map (·.2)

/-- `elem.find(tag)` restricted to a plain tag: first direct child with the tag. -/
def Xml.findChild (x : Xml) (t : String) : Option Xml :=
  x.children.find? (fun c => c.tag == t)

/-- A present text node contributes itself; `None` contributes nothing
(lxml `itertext()` yields only existing text nodes). -/
def optTexts : Option String → List String
  | none => []
  | some s => [s]

mutual
/-- `elem.itertext()`: the text fragments under an element in document
order (the element's `text`, then recursively each child's fragments
followed by that child's `tail`). -/
def itertexts : Xml → List String
  | .elem _ _ t cs _ => optTexts t ++ itertextsList cs

/-- Fragments contributed by a list of sibling elements. -/
def itertextsList : List Xml → List String
  | [] => []
  | c :: cs => itertexts c ++ optTexts c.tail ++ itertextsList cs
end

/-- `''.join(elem.itertext())`. -/
def itertext (x : Xml) : String :=
  String.join (itertexts x)

mutual
/-- All proper descendants of an element, in document (preorder) order;
models the node set of `elem.findall('.//…')` before tag filtering. -/
def descendants : Xml → List Xml
  | .elem _ _ _ cs _ => descList cs

/-- Descendants-or-selves of a list of siblings, in document order. -/
def descList : List Xml → List Xml
  | [] => []
  | c :: cs => c :: descendants c ++ descList cs
end

/-- ASCII whitespace, as stripped by Python `str.strip()`. -/
def isPySpace (c : Char) : Bool :=
  c == ' ' || c == '\t' || c == '\n' || c == '\r' || c == '\x0b' || c == '\x0c'

/-- Python `str.strip()`: leading and trailing whitespace removed. -/
def pyStrip (s : String) : String :=
  ⟨((s.data.dropWhile isPySpace).reverse.dropWhile isPySpace).reverse⟩

/-- Python `str.lstrip('#')`: remove every leading `'#'` character. -/
def lstripHash (s : String) : String :=
  ⟨s.data.dropWhile (fun c => c == '#')⟩

/-- Inline content of a paragraph: a literal text run or an in-text
citation (`{'type': 'text'}` / `{'type': 'ref'}` dicts in the source). -/
inductive Span where
  | text (s : String)
  | ref (s : String) (target : String)
deriving DecidableEq

/-- `if s:`-guarded text span: Python appends a text piece only when the
value is neither `None` nor the empty string. -/
def txtSpans : Option String → List Span
  | none => []
  | some s => if s == "" then [] else [Span.text s]

mutual
/-- `get_paragraph_content`: recursive walk of a paragraph element.
The node's `text` is emitted first; a child `<ref type="bibr">` becomes a
citation span (text = flattened child content, target = `target` attribute
with leading `'#'` stripped) followed by its `tail`; any other child is
recursed into, followed by its `tail`. -/
def get_paragraph_content : Xml → List Span
  | .elem _ _ t cs _ => txtSpans t ++ paraChildren cs

/-- The loop body of `get_paragraph_content.recurse` over child elements. -/
def paraChildren : List Xml → List Span
  | [] => []
  | c :: cs =>
      (if c.tag == "ref" && c.getAttr "type" == some "bibr" then
        Span.ref (itertext c) (lstripHash ((c.getAttr "target").getD "")) :: txtSpans c.tail
      else
        get_paragraph_content c ++ txtSpans c.tail) ++ paraChildren cs
end

/-- `parse_table`: find the direct `<table>` child of a figure; absent →
`None`; present → one row array per descendant `<row>`, one trimmed
flattened string per direct `<cell>` child of the row. -/
def parse_table (figure : Xml) : Option (List (List String)) :=
  match figure.findChild "table" with
  | none => none
  | some t =>
      some (((descendants t).filter (fun d => d.tag == "row")).map
        (fun row => (row.children.filter (fun c => c.tag == "cell")).map
          (fun cell => pyStrip (itertext cell))))

/-- A body block as built by `parse_tei.process_body_elements`: the
`content` of a table block is the raw result of `parse_table`, which can
be `None` (figure without a nested table). -/
inductive Block where
  | heading (text : String)
  | paragraph (content : List Span)
  | table (content : Option (List (List String)))
deriving DecidableEq

mutual
/-- `process_body_elements(parent)`: walk the children of `parent`. -/
def process_body_elements : Xml → List Block
  | .elem _ _ _ cs _ => processSiblings cs

/-- The loop of `process_body_elements` over sibling elements: `head` →
heading, `p` → paragraph, `div` → recurse transparently, `figure` with
`type="table"` → table block (content may be `none`), anything else
is skipped. -/
def processSiblings : List Xml → List Block
  | [] => []
  | e :: es =>
      (if e.tag == "head" then [Block.heading (pyStrip (itertext e))]
       else if e.tag == "p" then [Block.paragraph (get_paragraph_content e)]
       else if e.tag == "div" then process_body_elements e
       else if e.tag == "figure" && e.getAttr "type" == some "table" then
         [Block.table (parse_table e)]
       else []) ++ processSiblings es
end

/-- The blocks contributed by one element of the `process_body_elements`
loop (the body of one iteration). -/
def processOne (e : Xml) : List Block :=
  if e.tag == "head" then [Block.heading (pyStrip (itertext e))]
  else if e.tag == "p" then [Block.paragraph (get_paragraph_content e)]
  else if e.tag == "div" then process_body_elements e
  else if e.tag == "figure" && e.getAttr "type" == some "table" then
    [Block.table (parse_table e)]
  else []

mutual
/-- Node set of the XPath `//ptag/…` step: elements satisfying `cpred`
whose parent has tag `ptag`, collected in document order. `pm` records
whether the current element's parent has tag `ptag`. -/
def findPC (ptag : String) (cpred : Xml → Bool) (pm : Bool) : Xml → List Xml
  | .elem t a tx cs tl =>
      (if pm && cpred (Xml.elem t a tx cs tl) then [Xml.elem t a tx cs tl] else []) ++
        findPCList ptag cpred (t == ptag) cs

/-- `findPC` over sibling lists. -/
def findPCList (ptag : String) (cpred : Xml → Bool) (pm : Bool) : List Xml → List Xml
  | [] => []
  | c :: cs => findPC ptag cpred pm c ++ findPCList ptag cpred pm cs
end

mutual
/-- Node set of the XPath `//atag//ctag`: elements with tag `ctag` that
are proper descendants of some element with tag `atag`, in document
order. `under` records whether an `atag` ancestor has been seen. -/
def findDesc (atag ctag : String) (under : Bool) : Xml → List Xml
  | .elem t a tx cs tl =>
      (if under && t == ctag then [Xml.elem t a tx cs tl] else []) ++
        findDescList atag ctag (under || t == atag) cs

/-- `findDesc` over sibling lists. -/
def findDescList (atag ctag : String) (under : Bool) : List Xml → List Xml
  | [] => []
  | c :: cs => findDesc atag ctag under c ++ findDescList atag ctag under cs
end

mutual
/-- Node set of `//back//listBibl//biblStruct`: `biblStruct` elements
below a `listBibl` that itself lies below a `back`, in document order. -/
def findBibl (underBack underLB : Bool) : Xml → List Xml
  | .elem t a tx cs tl =>
      (if underLB && t == "biblStruct" then [Xml.elem t a tx cs tl] else []) ++
        findBiblList (underBack || t == "back")
          (underLB || (underBack && t == "listBibl")) cs

/-- `findBibl` over sibling lists. -/
def findBiblList (underBack underLB : Bool) : List Xml → List Xml
  | [] => []
  | c :: cs =>
      findBibl underBack underLB c ++ findBiblList underBack underLB cs
end

/-- `tree.xpath("//tei:titleStmt/tei:title[@type='main']")`. -/
def titleElems (root : Xml) : List Xml :=
  findPC "titleStmt"
    (fun x => x.tag == "title" && x.getAttr "type" == some "main") false root

/-- `tree.xpath("//tei:sourceDesc//tei:author")`. -/
def authorElems (root : Xml) : List Xml :=
  findDesc "sourceDesc" "author" false root

/-- `tree.xpath("//tei:profileDesc/tei:abstract")`. -/
def abstractElems (root : Xml) : List Xml :=
  findPC "profileDesc" (fun x => x.tag == "abstract") false root

/-- `tree.xpath("//tei:text/tei:body")`. -/
def bodyElems (root : Xml) : List Xml :=
  findPC "text" (fun x => x.tag == "body") false root

/-- `tree.xpath("//tei:back//tei:listBibl//tei:biblStruct")`. -/
def biblElems (root : Xml) : List Xml :=
  findBibl false false root

/-- `' '.join(parts)` over possibly-`None` parts: raises `TypeError`
(modelled as `Except.error ()`) when any part is `None`. -/
def joinParts (parts : List (Option String)) : Except Unit String :=
  if parts.any Option.isNone then Except.error ()
  else Except.ok (" ".intercalate (parts.map (·.getD "")))

/-- The `name_parts` list collected for one `<author>`: the `text` of the
first `forename` child and of the first `surname` child of the author's
first `persName` child, each appended only when the child element exists
(its text may still be `None`). -/
def authorParts (a : Xml) : List (Option String) :=
  match a.findChild "persName" with
  | none => []
  | some pn =>
      (match pn.findChild "forename" with
       | none => []
       | some f => [f.text]) ++
      (match pn.findChild "surname" with
       | none => []
       | some s => [s.text])

/-- The author loop of `parse_tei`: join each author's name parts with a
space (which can raise) and keep the non-empty names in order. -/
def computeAuthors : List Xml → Except Unit (List String)
  | [] => Except.ok []
  | a :: as =>
      match joinParts (authorParts a) with
      | Except.error e => Except.error e
      | Except.ok n =>
          match computeAuthors as with
          | Except.error e => Except.error e
          | Except.ok rest => Except.ok ((if n == "" then [] else [n]) ++ rest)

/-- The attribute key of the namespaced id; models the Python key
`"..XML namespace..id"` used in `ref.get`. -/
def xmlIdKey : String := "xml:id"

/-- `' '.join(ref.itertext()).strip()`. -/
def refText (r : Xml) : String :=
  pyStrip (" ".intercalate (itertexts r))

/-- The references loop of `parse_tei`: id from the explicit `xml:id`
attribute, else `"ref_" + str(len(references) + 1)` with the current
length of the accumulated list. -/
def parse_refs (bs : List Xml) : List (String × String) :=
  bs.foldl
    (fun acc r =>
      acc ++ [((r.getAttr xmlIdKey).getD ("ref_" ++ Nat.repr (acc.length + 1)),
               refText r)])
    []

/-- `parse_refs` with an explicit count of already-collected references,
used for induction. -/
def build_refs_from (k : Nat) : List Xml → List (String × String)
  | [] => []
  | r :: rs =>
      ((r.getAttr xmlIdKey).getD ("ref_" ++ Nat.repr (k + 1)), refText r) ::
        build_refs_from (k + 1) rs

/-- The ids `parse_refs` assigns to the entries that lack an explicit
`xml:id`, with `k` entries of any kind already collected. -/
def fallback_ids_from (k : Nat) : List Xml → List String
  | [] => []
  | r :: rs =>
      (if (r.getAttr xmlIdKey).isNone then ["ref_" ++ Nat.repr (k + 1)] else []) ++
        fallback_ids_from (k + 1) rs

/-- The ids assigned to the bibliography entries of a document that lack
an explicit `xml:id`, in encounter order. -/
def fallback_ids (root : Xml) : List String :=
  fallback_ids_from 0 (biblElems root)

/-- The structural document model returned by `parse_tei`. The title is
`Option String` because `title[0].text` can be Python `None`. -/
structure DocModel where
  title : Option String
  authors : List String
  abstract : String
  body_elements : List Block
  references : List (String × String)
deriving DecidableEq

/-- The body of `parse_tei`'s `try:` block on an already-parsed tree.
The only modelled exception source is the author-name join (`' '.join`
over a list that may contain `None`). -/
def parse_tei_run (root : Xml) : Except Unit DocModel :=
  match computeAuthors (authorElems root) with
  | Except.error e => Except.error e
  | Except.ok authors =>
      Except.ok
        { title :=
            match titleElems root with
            | [] => some "N/A"
            | t :: _ => t.text
          authors := authors
          abstract :=
            match abstractElems root with
            | [] => ""
            | a :: _ => pyStrip (String.join (itertexts a))
          body_elements :=
            match bodyElems root with
            | [] => []
            | b :: _ => process_body_elements b
          references := parse_refs (biblElems root) }

/-- The whole parse attempt: `etree.parse` may itself fail (input
`Except.error`), otherwise the `try:` body runs on the tree. -/
def parse_tei_attempt (input : Except Unit Xml) : Except Unit DocModel :=
  match input with
  | Except.error e => Except.error e
  | Except.ok root => parse_tei_run root

/-- `parse_tei`: the surrounding `try/except` returns the model on
success and `None` when anything raised. -/
def parse_tei (input : Except Unit Xml) : Option DocModel :=
  match parse_tei_attempt input with
  | Except.ok m => some m
  | Except.error _ => none

/-- One inline piece of an output paragraph: plain text, a hyperlink
(`A(href=…, text=…)`), or a bookmark boundary. -/
inductive Piece where
  | txt (s : String)
  | link (href : String) (disp : String)
  | bmStart (nm : String)
  | bmEnd (nm : String)
deriving DecidableEq

/-- One top-level element appended to `doc.text` by `create_odt`: a
paragraph with an optional style name, or a table. -/
inductive OItem where
  | par (style : Option String) (pieces : List Piece)
  | tbl (rows : List (List String))
deriving DecidableEq

/-- The empty paragraph `P(text="")` used as a blank line. -/
def blankP : OItem := OItem.par none []

/-- One content piece of a body paragraph: a text span is appended as
text; a citation span becomes a hyperlink with href `"#" + target`. -/
def renderSpan : Span → Piece
  | Span.text s => Piece.txt s
  | Span.ref s target => Piece.link ("#" ++ target) s

/-- Output of one body block: heading and paragraph blocks each produce a
styled paragraph plus a blank line; a table block produces a table plus a
blank line only when its row data is truthy (not `None`, not empty). -/
def renderBlock : Block → List OItem
  | Block.heading t => [OItem.par (some "Heading") [Piece.txt t], blankP]
  | Block.paragraph content =>
      [OItem.par (some "BodyText") (content.map renderSpan), blankP]
  | Block.table none => []
  | Block.table (some rows) =>
      if rows == [] then [] else [OItem.tbl rows, blankP]

/-- The title paragraph; `P(text=None)` contributes no text piece. -/
def titlePart (m : DocModel) : List OItem :=
  [OItem.par (some "Title")
    (match m.title with
     | none => []
     | some s => [Piece.txt s])]

/-- The author paragraph, only when the author list is non-empty. -/
def authorsPart (m : DocModel) : List OItem :=
  if m.authors == [] then []
  else [OItem.par (some "AuthorStyle") [Piece.txt (", ".intercalate m.authors)]]

/-- The abstract section: an "Abstract" heading and the abstract text,
only when the abstract string is truthy (non-empty). -/
def abstractPart (m : DocModel) : List OItem :=
  if m.abstract == "" then []
  else
    [OItem.par (some "Heading") [Piece.txt "Abstract"],
     OItem.par (some "AbstractStyle") [Piece.txt m.abstract]]

/-- The paragraph for one reference entry: bookmark start, the text with
the literal `" bibitem"` suffix, bookmark end, then a blank line. -/
def refItem (r : String × String) : List OItem :=
  [OItem.par (some "BodyText")
    [Piece.bmStart r.1, Piece.txt (r.2 ++ " bibitem"), Piece.bmEnd r.1],
   blankP]

/-- The references loop of `create_odt`. Each entry is built inside its
own `try/except`; whether the underlying library raises for an entry is
abstracted as the oracle `failsOn`. A failing entry contributes nothing;
the loop continues. -/
def render_references (failsOn : String × String → Bool)
    (refs : List (String × String)) : List OItem :=
  refs.foldl (fun acc r => if failsOn r then acc else acc ++ refItem r) []

/-- The references section: blank line, "References" heading, blank line,
then the reference paragraphs, only when the list is non-empty. -/
def referencesPart (failsOn : String × String → Bool) (m : DocModel) : List OItem :=
  if m.references == [] then []
  else
    [blankP, OItem.par (some "Heading") [Piece.txt "References"], blankP] ++
      render_references failsOn m.references

/-- `create_odt`: the sequence of elements appended to `doc.text`, in the
source's fixed order (title, authors, abstract, body blocks, references). -/
def create_odt (failsOn : String × String → Bool) (m : DocModel) : List OItem :=
  titlePart m ++ authorsPart m ++ abstractPart m ++
    m.body_elements.flatMap renderBlock ++ referencesPart failsOn m

/-- Big-endian decimal digit characters of a natural number; a reference
implementation used to reason about `Nat.repr`. -/
def digitsBE (n : Nat) : List Char :=
  if _h : n < 10 then [Nat.digitChar n]
  else digitsBE (n / 10) ++ [Nat.digitChar (n % 10)]
termination_by n
decreasing_by omega

/-- Decode a list of decimal digit characters back to the number. -/
def decodeBE (l : List Char) : Nat :=
  l.foldl (fun acc c => acc * 10 + (c.toNat - 48)) 0

/-- An element with no text and no children (e.g. `<abstract/>`). -/
def isEmptyElem (x : Xml) : Bool :=
  x.text.isNone && x.children.isEmpty

/-! Concrete example documents used by counterexamples and witnesses. -/

/-- The paragraph `<p>See <ref type="bibr" target="#b0">Smith 2020</ref>
for details.</p>`. -/
def exP : Xml :=
  Xml.elem "p" [] (some "See ")
    [Xml.elem "ref" [("type", "bibr"), ("target", "#b0")]
      (some "Smith 2020") [] (some " for details.")]
    none

/-- A table-typed figure with no nested table element. -/
def figEx : Xml := Xml.elem "figure" [("type", "table")] none [] none

/-- A document whose body holds only a table-typed figure with no nested
table element. -/
def cDoc1 : Xml :=
  Xml.elem "TEI" [] none
    [Xml.elem "text" [] none
      [Xml.elem "body" [] none [figEx] none] none] none

/-- Bibliography with an explicit id `b0` followed by an entry lacking an
id: the fallback id synthesized for the second entry is `ref_2`. -/
def cDoc2 : Xml :=
  Xml.elem "TEI" [] none
    [Xml.elem "back" [] none
      [Xml.elem "listBibl" [] none
        [Xml.elem "biblStruct" [("xml:id", "b0")] (some "Alpha") [] none,
         Xml.elem "biblStruct" [] (some "Beta") [] none] none] none] none

/-- Bibliography with an explicit id `ref_2` followed by an entry lacking
an id: the synthesized id collides with the explicit one. -/
def cDoc3 : Xml :=
  Xml.elem "TEI" [] none
    [Xml.elem "back" [] none
      [Xml.elem "listBibl" [] none
        [Xml.elem "biblStruct" [("xml:id", "ref_2")] (some "Alpha") [] none,
         Xml.elem "biblStruct" [] (some "Beta") [] none] none] none] none

/-- Bibliography in which both entries lack an explicit id. -/
def wDoc2 : Xml :=
  Xml.elem "TEI" [] none
    [Xml.elem "back" [] none
      [Xml.elem "listBibl" [] none
        [Xml.elem "biblStruct" [] (some "Alpha") [] none,
         Xml.elem "biblStruct" [] (some "Beta") [] none] none] none] none

/-- The model parsed from `wDoc2`. -/
def wModel2 : DocModel :=
  { title := some "N/A", authors := [], abstract := "", body_elements := [],
    references := [("ref_1", "Alpha"), ("ref_2", "Beta")] }

/-- Bibliography with a single entry lacking an explicit id. -/
def wDoc3 : Xml :=
  Xml.elem "TEI" [] none
    [Xml.elem "back" [] none
      [Xml.elem "listBibl" [] none
        [Xml.elem "biblStruct" [] (some "Gamma") [] none] none] none] none

/-- The model parsed from `wDoc3`. -/
def wModel3 : DocModel :=
  { title := some "N/A", authors := [], abstract := "", body_elements := [],
    references := [("ref_1", "Gamma")] }

/-- A document with a main title "Hello". -/
def wDoc7 : Xml :=
  Xml.elem "TEI" [] none
    [Xml.elem "titleStmt" [] none
      [Xml.elem "title" [("type", "main")] (some "Hello") [] none] none] none

/-- The model parsed from `wDoc7`. -/
def wModel7 : DocModel :=
  { title := some "Hello", authors := [], abstract := "", body_elements := [],
    references := [] }

/-- A document with an empty `<abstract/>` element. -/
def wDoc8 : Xml :=
  Xml.elem "TEI" [] none
    [Xml.elem "profileDesc" [] none
      [Xml.elem "abstract" [] none [] none] none] none

/-- The model parsed from `wDoc8`. -/
def wModel8 : DocModel :=
  { title := some "N/A", authors := [], abstract := "", body_elements := [],
    references := [] }

/-- A `forename` element whose text is absent (Python `None`). -/
def wFn : Xml := Xml.elem "forename" [] none [] none

/-- A `persName` holding only the text-less forename. -/
def wPn : Xml := Xml.elem "persName" [] none [wFn] none

/-- An author entry whose forename has no text. -/
def wAuthor : Xml := Xml.elem "author" [] none [wPn] none

/-- A document with one author whose forename element has no text. -/
def wDoc9 : Xml :=
  Xml.elem "TEI" [] none
    [Xml.elem "sourceDesc" [] none [wAuthor] none] none

/-- A paragraph with a citation whose target attribute is `##b0`. -/
def wP10 : Xml :=
  Xml.elem "p" [] none
    [Xml.elem "ref" [("type", "bibr"), ("target", "##b0")]
      (some "X") [] none] none

/-- A document whose body holds only `wP10`. -/
def wDoc10 : Xml :=
  Xml.elem "TEI" [] none
    [Xml.elem "text" [] none
      [Xml.elem "body" [] none [wP10] none] none] none

/-- The model parsed from `wDoc10`: the leading `##` of the citation
target is stripped entirely. -/
def wModel10 : DocModel :=
  { title := some "N/A", authors := [], abstract := "",
    body_elements := [Block.paragraph [Span.ref "X" "b0"]],
    references := [] }

/-! Helper lemmas: injectivity of the decimal rendering `Nat.repr`. -/

theorem digitChar_toNat_eq : ∀ d, d < 10 → (Nat.digitChar d).toNat = 48 + d := by
  decide

theorem toDigitsCore_eq_digitsBE (f : Nat) :
    ∀ n ds, n < 10 ^ (f + 1) →
      Nat.toDigitsCore 10 (f + 1) n ds = digitsBE n ++ ds := by
  induction f with
  | zero =>
      intro n ds h
      have h10 : n < 10 := by simpa using h
      have hdiv : n / 10 = 0 := Nat.div_eq_of_lt h10
      have hmod : n % 10 = n := Nat.mod_eq_of_lt h10
      rw [Nat.toDigitsCore, digitsBE]
      simp [hdiv, hmod, h10]
  | succ f ih =>
      intro n ds h
      rw [Nat.toDigitsCore]
      by_cases h0 : n / 10 = 0
      · have h10 : n < 10 := by omega
        have hmod : n % 10 = n := Nat.mod_eq_of_lt h10
        rw [digitsBE]
        simp [h0, hmod, h10]
      · have hlt : n / 10 < 10 ^ (f + 1) := by
          rw [Nat.div_lt_iff_lt_mul (by norm_num : 0 < 10)]
          calc n < 10 ^ (f + 1 + 1) := h
            _ = 10 ^ (f + 1) * 10 := by rw [Nat.pow_succ]
        rw [if_neg h0, ih (n / 10) _ hlt]
        conv_rhs => rw [digitsBE]
        have h10 : ¬ n < 10 := by omega
        simp [h10, List.append_assoc]

theorem decodeBE_digitsBE : ∀ n, decodeBE (digitsBE n) = n := by
  intro n
  induction n using Nat.strong_induction_on with
  | _ n ih =>
    rw [digitsBE]
    by_cases h10 : n < 10
    · rw [dif_pos h10]
      simp [decodeBE, digitChar_toNat_eq n h10]
    · rw [dif_neg h10]
      have ihd := ih (n / 10) (by omega)
      have hm : n % 10 < 10 := by omega
      simp only [decodeBE, List.foldl_append] at *
      rw [ihd]
      simp [digitChar_toNat_eq (n % 10) hm]
      omega

theorem digitsBE_injective {m n : Nat} (h : digitsBE m = digitsBE n) : m = n := by
  rw [← decodeBE_digitsBE m, ← decodeBE_digitsBE n, h]

theorem lt_ten_pow_succ (n : Nat) : n < 10 ^ (n + 1) :=
  calc n < 2 ^ n := Nat.lt_two_pow n
    _ ≤ 10 ^ n := Nat.pow_le_pow_left (by norm_num) n
    _ ≤ 10 ^ (n + 1) := Nat.pow_le_pow_right (by norm_num) (Nat.le_succ n)

theorem natRepr_eq_digitsBE (n : Nat) : Nat.repr n = (digitsBE n).asString := by
  unfold Nat.repr Nat.toDigits
  rw [toDigitsCore_eq_digitsBE n n [] (lt_ten_pow_succ n)]
  simp

theorem natRepr_injective (m n : Nat) (h : Nat.repr m = Nat.repr n) : m = n := by
  rw [natRepr_eq_digitsBE, natRepr_eq_digitsBE] at h
  exact digitsBE_injective (congrArg String.data h)

theorem refName_injective (i j : Nat)
    (h : ("ref_" ++ Nat.repr i) = ("ref_" ++ Nat.repr j)) : i = j := by
  have hd : "ref_".data ++ (Nat.repr i).data = "ref_".data ++ (Nat.repr j).data :=
    congrArg String.data h
  exact natRepr_injective i j (String.ext (List.append_cancel_left hd))

/-! Helper lemmas: the reference-id assignment of `parse_refs`. -/

theorem parse_refs_foldl (bs : List Xml) :
    ∀ acc : List (String × String),
      bs.foldl
        (fun acc r =>
          acc ++ [((r.getAttr xmlIdKey).getD ("ref_" ++ Nat.repr (acc.length + 1)),
                   refText r)]) acc
      = acc ++ build_refs_from acc.length bs := by
  induction bs with
  | nil => intro acc; simp [build_refs_from]
  | cons r rs ih =>
      intro acc
      rw [List.foldl_cons, ih, build_refs_from]
      simp

theorem parse_refs_eq_build (bs : List Xml) :
    parse_refs bs = build_refs_from 0 bs := by
  simpa using parse_refs_foldl bs []

/-- `fallback_ids_from` is exactly the first components of the assigned
pairs at the positions whose source entry lacks an explicit id. -/
theorem fallback_ids_from_spec :
    ∀ (bs : List Xml) (k : Nat),
      fallback_ids_from k bs =
        ((bs.zip (build_refs_from k bs)).filterMap
          (fun p => if (p.1.getAttr xmlIdKey).isNone then some p.2.1 else none)) := by
  intro bs
  induction bs with
  | nil => intro k; simp [fallback_ids_from, build_refs_from]
  | cons r rs ih =>
      intro k
      rw [fallback_ids_from, build_refs_from]
      by_cases hid : (r.getAttr xmlIdKey).isNone = true
      · have hr : r.getAttr xmlIdKey = none := Option.isNone_iff_eq_none.mp hid
        simp [List.filterMap_cons, hid, hr, ih (k + 1)]
      · have hr : ¬ r.getAttr xmlIdKey = none := fun hn => hid (by simp [hn])
        simp [List.filterMap_cons, hid, hr, ih (k + 1)]

theorem mem_fallback_ids_from :
    ∀ (bs : List Xml) (k : Nat) (s : String),
      s ∈ fallback_ids_from k bs → ∃ j, k < j ∧ s = "ref_" ++ Nat.repr j := by
  intro bs
  induction bs with
  | nil => intro k s hs; simp [fallback_ids_from] at hs
  | cons r rs ih =>
      intro k s hs
      rw [fallback_ids_from] at hs
      rcases List.mem_append.mp hs with h1 | h2
      · by_cases hid : (r.getAttr xmlIdKey).isNone = true
        · rw [if_pos hid] at h1
          exact ⟨k + 1, by omega, List.mem_singleton.mp h1⟩
        · rw [if_neg hid] at h1
          simp at h1
      · obtain ⟨j, hj, hs⟩ := ih (k + 1) s h2
        exact ⟨j, by omega, hs⟩

theorem fallback_ids_from_nodup :
    ∀ (bs : List Xml) (k : Nat), (fallback_ids_from k bs).Nodup := by
  intro bs
  induction bs with
  | nil => intro k; simp [fallback_ids_from]
  | cons r rs ih =>
      intro k
      rw [fallback_ids_from]
      by_cases hid : (r.getAttr xmlIdKey).isNone = true
      · rw [if_pos hid]
        simp only [List.singleton_append, List.nodup_cons]
        refine ⟨fun hmem => ?_, ih (k + 1)⟩
        obtain ⟨j, hj, heq⟩ := mem_fallback_ids_from rs (k + 1) _ hmem
        have := refName_injective (k + 1) j heq
        omega
      · rw [if_neg hid]
        simpa using ih (k + 1)

theorem build_refs_from_all_none :
    ∀ (bs : List Xml) (k : Nat),
      (∀ b ∈ bs, (b.getAttr xmlIdKey).isNone = true) →
      (build_refs_from k bs).map Prod.fst =
        (List.range bs.length).map (fun i => "ref_" ++ Nat.repr (k + i + 1)) := by
  intro bs
  induction bs with
  | nil => intro k _; simp [build_refs_from]
  | cons r rs ih =>
      intro k hall
      have hr : r.getAttr xmlIdKey = none :=
        Option.isNone_iff_eq_none.mp (hall r (List.mem_cons_self r rs))
      rw [build_refs_from]
      rw [List.length_cons, List.range_succ_eq_map]
      simp only [List.map_cons, List.map_map, hr, Option.getD_none]
      congr 1
      rw [ih (k + 1) (fun b hb => hall b (List.mem_cons_of_mem r hb))]
      apply List.map_congr_left
      intro i _
      simp only [Function.comp_apply]
      have heq : k + 1 + i + 1 = k + (i + 1) + 1 := by omega
      rw [heq]

/-! Helper lemmas: the reference-rendering loop. -/

theorem render_references_foldl (f : String × String → Bool) :
    ∀ (rs : List (String × String)) (acc : List OItem),
      rs.foldl (fun acc r => if f r then acc else acc ++ refItem r) acc
        = acc ++ render_references f rs := by
  intro rs
  induction rs with
  | nil => intro acc; simp [render_references]
  | cons r rs ih =>
      intro acc
      rw [List.foldl_cons, ih]
      conv_rhs => rw [render_references, List.foldl_cons, ih]
      by_cases hf : f r = true
      · simp [hf]
      · simp [hf, render_references]

/-! Helper lemmas: shape of citation targets in paragraph content. -/

theorem txtSpans_no_ref (o : Option String) (t g : String) :
    Span.ref t g ∉ txtSpans o := by
  cases o with
  | none => simp [txtSpans]
  | some s =>
      by_cases h : s == ""
      · simp [txtSpans, h]
      · simp [txtSpans, h]

mutual
theorem gpc_ref_target : ∀ (x : Xml) (t g : String),
    Span.ref t g ∈ get_paragraph_content x → ∃ s, g = lstripHash s
  | .elem _ _ tx cs _ => by
      intro t g h
      rw [get_paragraph_content] at h
      rcases List.mem_append.mp h with h1 | h2
      · exact absurd h1 (txtSpans_no_ref tx t g)
      · exact paraChildren_ref_target cs t g h2

theorem paraChildren_ref_target : ∀ (cs : List Xml) (t g : String),
    Span.ref t g ∈ paraChildren cs → ∃ s, g = lstripHash s
  | [] => by intro t g h; simp [paraChildren] at h
  | c :: cs => by
      intro t g h
      rw [paraChildren] at h
      rcases List.mem_append.mp h with h1 | h2
      · by_cases hc : (c.tag == "ref" && c.getAttr "type" == some "bibr") = true
        · rw [if_pos hc] at h1
          rcases List.mem_cons.mp h1 with heq | htail
          · injection heq with _ hg
            exact ⟨_, hg⟩
          · exact absurd htail (txtSpans_no_ref c.tail t g)
        · rw [if_neg hc] at h1
          rcases List.mem_append.mp h1 with h3 | h4
          · exact gpc_ref_target c t g h3
          · exact absurd h4 (txtSpans_no_ref c.tail t g)
      · exact paraChildren_ref_target cs t g h2
end

theorem lstripHash_head (s : String) : (lstripHash s).data.head? ≠ some '#' := by
  cases s with
  | mk l =>
      show (l.dropWhile (fun c => c == '#')).head? ≠ some '#'
      induction l with
      | nil => simp
      | cons c cs ih =>
          rw [List.dropWhile_cons]
          by_cases hc : (c == '#') = true
          · simpa [hc] using ih
          · simp only [hc, if_false]
            intro hcontra
            simp at hcontra
            rw [hcontra] at hc
            simp at hc

/-! Helper lemmas: shape of paragraph blocks in the body. -/

mutual
theorem pbe_paragraph_shape : ∀ (x : Xml) (content : List Span),
    Block.paragraph content ∈ process_body_elements x →
      ∃ e, content = get_paragraph_content e
  | .elem _ _ _ cs _ => by
      intro content h
      rw [process_body_elements] at h
      exact processSiblings_paragraph_shape cs content h

theorem processSiblings_paragraph_shape : ∀ (es : List Xml) (content : List Span),
    Block.paragraph content ∈ processSiblings es →
      ∃ e, content = get_paragraph_content e
  | [] => by intro content h; simp [processSiblings] at h
  | e :: es => by
      intro content h
      rw [processSiblings] at h
      rcases List.mem_append.mp h with h1 | h2
      · by_cases hh : (e.tag == "head") = true
        · rw [if_pos hh] at h1; simp at h1
        · rw [if_neg hh] at h1
          by_cases hp : (e.tag == "p") = true
          · rw [if_pos hp] at h1
            have heq := List.mem_singleton.mp h1
            injection heq with hc
            exact ⟨e, hc⟩
          · rw [if_neg hp] at h1
            by_cases hd : (e.tag == "div") = true
            · rw [if_pos hd] at h1
              exact pbe_paragraph_shape e content h1
            · rw [if_neg hd] at h1
              by_cases hf : (e.tag == "figure" && e.getAttr "type" == some "table") = true
              · rw [if_pos hf] at h1; simp at h1
              · rw [if_neg hf] at h1; simp at h1
      · exact processSiblings_paragraph_shape es content h2
end

/-! Helper lemmas: failure propagation in the author loop. -/

theorem authorParts_join_error (a pn f : Xml)
    (hpn : a.findChild "persName" = some pn)
    (hf : (pn.findChild "forename" = some f ∧ f.text = none) ∨
          (pn.findChild "surname" = some f ∧ f.text = none)) :
    joinParts (authorParts a) = Except.error () := by
  unfold authorParts
  rw [hpn]
  dsimp only
  rcases hf with ⟨hff, hft⟩ | ⟨hfs, hst⟩
  · rw [hff]
    dsimp only
    rw [hft]
    simp [joinParts]
  · rw [hfs]
    dsimp only
    rw [hst]
    simp [joinParts, List.any_append]

theorem computeAuthors_error :
    ∀ (as : List Xml) (a : Xml), a ∈ as →
      joinParts (authorParts a) = Except.error () →
      computeAuthors as = Except.error () := by
  intro as
  induction as with
  | nil => intro a ha; simp at ha
  | cons x xs ih =>
      intro a ha herr
      rcases List.mem_cons.mp ha with rfl | hmem
      · rw [computeAuthors, herr]
      · rw [computeAuthors]
        cases hj : joinParts (authorParts x) with
        | error e => rfl
        | ok n => rw [ih a hmem herr]

/-- Field values of a successfully parsed model, read off `parse_tei_run`. -/
theorem parse_tei_run_fields (root : Xml) (m : DocModel)
    (h : parse_tei_run root = Except.ok m) :
    m.title = (match titleElems root with
               | [] => some "N/A"
               | t :: _ => t.text) ∧
    m.abstract = (match abstractElems root with
                  | [] => ""
                  | a :: _ => pyStrip (String.join (itertexts a))) ∧
    m.body_elements = (match bodyElems root with
                       | [] => []
                       | b :: _ => process_body_elements b) ∧
    m.references = parse_refs (biblElems root) := by
  unfold parse_tei_run at h
  cases hc : computeAuthors (authorElems root) with
  | error e => rw [hc] at h; simp at h
  | ok authors =>
      rw [hc] at h
      dsimp only at h
      injection h with hm
      subst hm
      exact ⟨rfl, rfl, rfl, rfl⟩

/-- Claim C1, counterexample: parsing a document whose body holds a
table-typed figure with no nested table element yields
`body_elements = [Block.table none]` — a table block is contributed,
contradicting "contributes no Table block to body_elements". -/
theorem c1_counterexample :
    parse_tei_run cDoc1 = Except.ok
      { title := some "N/A", authors := [], abstract := "",
        body_elements := [Block.table none], references := [] } ∧
    Block.table none ∈ [Block.table none] :=
  ⟨rfl, List.mem_singleton.mpr rfl⟩

/-- Claim C1, amended: a `figure` element carrying the table-type
attribute but containing no nested table element contributes a Table
block with absent (`None`) row data to `body_elements` — no error is
raised — and the renderer emits nothing for such a block. -/
theorem c1_figure_without_table (fig : Xml)
    (hTag : fig.tag = "figure")
    (hType : fig.getAttr "type" = some "table")
    (hNoTable : fig.findChild "table" = none) :
    processOne fig = [Block.table none] ∧ renderBlock (Block.table none) = [] := by
  have h1 : (fig.tag == "head") = false := by rw [hTag]; rfl
  have h2 : (fig.tag == "p") = false := by rw [hTag]; rfl
  have h3 : (fig.tag == "div") = false := by rw [hTag]; rfl
  have h4 : (fig.tag == "figure" && fig.getAttr "type" == some "table") = true := by
    rw [hTag, hType]; rfl
  refine ⟨?_, rfl⟩
  unfold processOne parse_table
  rw [h1, h2, h3, h4, hNoTable]
  rfl

/-- Claim C1, witness: the amended statement at the concrete figure. -/
theorem c1_witness :
    processOne figEx = [Block.table none] ∧ renderBlock (Block.table none) = [] :=
  c1_figure_without_table figEx rfl rfl rfl

/-- Claim C2, counterexample: with a bibliography `[xml:id="b0", no id]`,
the single entry lacking an id is assigned `ref_2` (the overall count is
used), not `ref_1` as the claim's "exactly ref_1, ref_2, …" requires. -/
theorem c2_counterexample :
    parse_tei_run cDoc2 = Except.ok
      { title := some "N/A", authors := [], abstract := "", body_elements := [],
        references := [("b0", "Alpha"), ("ref_2", "Beta")] } ∧
    fallback_ids cDoc2 = ["ref_2"] ∧ ["ref_2"] ≠ ["ref_1"] :=
  ⟨rfl, by decide, by decide⟩

/-- Claim C2, amended: the ids assigned to entries lacking a source
identifier are pairwise distinct, and each is `"ref_" + (k + 1)` where
`k` counts all references (of either kind) collected before it; when
every entry lacks an identifier they are exactly ref_1, ref_2, … in
encounter order. -/
theorem c2_fallback_ids (root : Xml) (m : DocModel)
    (h : parse_tei_run root = Except.ok m) :
    (fallback_ids root).Nodup ∧
    ((∀ b ∈ biblElems root, (b.getAttr xmlIdKey).isNone = true) →
      m.references.map Prod.fst =
        (List.range (biblElems root).length).map
          (fun i => "ref_" ++ Nat.repr (i + 1))) := by
  constructor
  · exact fallback_ids_from_nodup (biblElems root) 0
  · intro hall
    rw [(parse_tei_run_fields root m h).2.2.2, parse_refs_eq_build,
      build_refs_from_all_none (biblElems root) 0 hall]
    apply List.map_congr_left
    intro i _
    norm_num

/-- Claim C2, witness: with both entries lacking ids the assigned ids are
ref_1, ref_2 and pairwise distinct. -/
theorem c2_witness :
    (fallback_ids wDoc2).Nodup ∧
    wModel2.references.map Prod.fst =
      (List.range (biblElems wDoc2).length).map
        (fun i => "ref_" ++ Nat.repr (i + 1)) :=
  ⟨(c2_fallback_ids wDoc2 wModel2 rfl).1,
   (c2_fallback_ids wDoc2 wModel2 rfl).2 (by decide)⟩

/-- Claim C3, counterexample: an explicit id `ref_2` followed by an entry
lacking an id produces the reference ids `["ref_2", "ref_2"]` — not
pairwise distinct, contradicting the uniqueness invariant for documents
mixing explicit and synthesized ids. -/
theorem c3_counterexample :
    parse_tei_run cDoc3 = Except.ok
      { title := some "N/A", authors := [], abstract := "", body_elements := [],
        references := [("ref_2", "Alpha"), ("ref_2", "Beta")] } ∧
    ¬ ([("ref_2", "Alpha"), ("ref_2", "Beta")].map
        (Prod.fst (α := String) (β := String))).Nodup :=
  ⟨rfl, by decide⟩

/-- Claim C3, amended: reference ids are pairwise distinct whenever every
bibliography entry lacks an explicit source id (all ids synthesized);
when explicit ids are present, an explicit id may coincide with a
synthesized or another explicit id and uniqueness can fail. -/
theorem c3_ids_nodup (root : Xml) (m : DocModel)
    (h : parse_tei_run root = Except.ok m)
    (hall : ∀ b ∈ biblElems root, (b.getAttr xmlIdKey).isNone = true) :
    (m.references.map Prod.fst).Nodup := by
  rw [(parse_tei_run_fields root m h).2.2.2, parse_refs_eq_build,
    build_refs_from_all_none (biblElems root) 0 hall]
  refine List.Nodup.map ?_ (List.nodup_range _)
  intro i j hij
  have := refName_injective (0 + i + 1) (0 + j + 1) hij
  omega

/-- Claim C3, witness: the amended statement at a concrete document whose
single bibliography entry lacks an explicit id. -/
theorem c3_witness : (wModel3.references.map Prod.fst).Nodup :=
  c3_ids_nodup wDoc3 wModel3 rfl (by decide)

/-- Claim C4: the example paragraph parses to exactly the three spans
`Text("See ")`, `CitationRef("Smith 2020", target "b0")`,
`Text(" for details.")`, in that order. -/
theorem c4_example_paragraph :
    get_paragraph_content exP =
      [Span.text "See ", Span.ref "Smith 2020" "b0", Span.text " for details."] := by
  decide

/-- Claim C5: whenever the parse attempt raises (the attempt is an
`error`), `parse_tei` returns `none` — no partial model escapes and no
exception propagates. -/
theorem c5_parse_exception_yields_none (input : Except Unit Xml) (e : Unit)
    (h : parse_tei_attempt input = Except.error e) :
    parse_tei input = none := by
  unfold parse_tei
  rw [h]

/-- Claim C5, witness: a failing parse (malformed input) yields `none`. -/
theorem c5_witness :
    parse_tei_attempt (Except.error ()) = Except.error () ∧
    parse_tei (Except.error ()) = none :=
  ⟨rfl, c5_parse_exception_yields_none (Except.error ()) () rfl⟩

/-- Claim C6: a reference entry whose paragraph construction raises is
skipped, and every reference before and after it is still rendered — the
references loop is not aborted. -/
theorem c6_reference_failure_skipped (f : String × String → Bool)
    (rs1 rs2 : List (String × String)) (r : String × String)
    (hf : f r = true) :
    render_references f (rs1 ++ r :: rs2) =
      render_references f rs1 ++ render_references f rs2 := by
  conv_lhs => rw [render_references]
  rw [List.foldl_append, List.foldl_cons, if_pos hf, render_references_foldl]
  rfl

/-- Claim C6, witness: a failing middle entry is dropped while the
surrounding entries render. -/
theorem c6_witness :
    (fun r : String × String => r.1 == "bad") ("bad", "y") = true ∧
    render_references (fun r : String × String => r.1 == "bad")
        ([("a", "x")] ++ ("bad", "y") :: [("b", "z")]) =
      render_references (fun r : String × String => r.1 == "bad") [("a", "x")] ++
        render_references (fun r : String × String => r.1 == "bad") [("b", "z")] :=
  ⟨rfl,
   c6_reference_failure_skipped (fun r => r.1 == "bad")
     [("a", "x")] [("b", "z")] ("bad", "y") rfl⟩

/-- Claim C7: the model's title is the `text` of the first element
matching the main-title criterion, and the literal "N/A" when no such
element exists. -/
theorem c7_title_extraction (root : Xml) (m : DocModel)
    (h : parse_tei_run root = Except.ok m) :
    m.title = (match titleElems root with
               | [] => some "N/A"
               | t :: _ => t.text) :=
  (parse_tei_run_fields root m h).1

/-- Claim C7, witness: a document with a main title "Hello" parses to
title `some "Hello"`; instantiating the theorem at a title-less document
gives the "N/A" placeholder. -/
theorem c7_witness :
    wModel7.title = some "Hello" ∧ wModel2.title = some "N/A" :=
  ⟨c7_title_extraction wDoc7 wModel7 rfl, c7_title_extraction wDoc2 wModel2 rfl⟩

/-- Claim C8: when the document's abstract element is absent or empty,
the parsed abstract is the empty string and the renderer's abstract step
emits nothing (no "Abstract" heading paragraph). -/
theorem c8_empty_abstract (root : Xml) (m : DocModel)
    (h : parse_tei_run root = Except.ok m)
    (habs : Option.all isEmptyElem (abstractElems root).head? = true) :
    m.abstract = "" ∧ abstractPart m = [] := by
  have hab : m.abstract = "" := by
    rw [(parse_tei_run_fields root m h).2.1]
    cases hae : abstractElems root with
    | nil => rfl
    | cons a rest =>
        rw [hae] at habs
        simp only [List.head?_cons, Option.all_some] at habs
        unfold isEmptyElem at habs
        rw [Bool.and_eq_true] at habs
        obtain ⟨htext, hchild⟩ := habs
        cases a with
        | elem tg at_ tx cs tl =>
            have htx : tx = none := by
              simpa [Xml.text] using Option.isNone_iff_eq_none.mp htext
            have hcs : cs = [] := by
              simpa [Xml.children] using List.isEmpty_iff.mp hchild
            subst htx
            subst hcs
            rfl
  refine ⟨hab, ?_⟩
  unfold abstractPart
  rw [hab]
  rfl

/-- Claim C8, witness: a concrete document with an empty `<abstract/>`. -/
theorem c8_witness : wModel8.abstract = "" ∧ abstractPart wModel8 = [] :=
  c8_empty_abstract wDoc8 wModel8 rfl rfl

/-- Claim C9: if some author's person-name element has a forename or
surname child whose text is absent, the name join raises, the outer
handler catches it, and the parse of the whole document yields `None`. -/
theorem c9_author_missing_name_fails (root a pn f : Xml)
    (ha : a ∈ authorElems root)
    (hpn : a.findChild "persName" = some pn)
    (hf : (pn.findChild "forename" = some f ∧ f.text = none) ∨
          (pn.findChild "surname" = some f ∧ f.text = none)) :
    parse_tei (Except.ok root) = none := by
  have herr := authorParts_join_error a pn f hpn hf
  have hca := computeAuthors_error (authorElems root) a ha herr
  unfold parse_tei parse_tei_attempt parse_tei_run
  dsimp only
  rw [hca]

/-- Claim C9, witness: a document whose sole author has a text-less
forename parses to `none`. -/
theorem c9_witness :
    wAuthor ∈ authorElems wDoc9 ∧ parse_tei (Except.ok wDoc9) = none :=
  ⟨List.Mem.head _,
   c9_author_missing_name_fails wDoc9 wAuthor wPn wFn (List.Mem.head _)
     rfl (Or.inl ⟨rfl, rfl⟩)⟩

/-- Claim C10: no citation span's target in a parsed model begins with
the character '#': every leading '#' of the target attribute is
stripped. -/
theorem c10_citation_target_no_hash (root : Xml) (m : DocModel)
    (content : List Span) (t g : String)
    (h : parse_tei_run root = Except.ok m)
    (hb : Block.paragraph content ∈ m.body_elements)
    (hs : Span.ref t g ∈ content) :
    g.data.head? ≠ some '#' := by
  rw [(parse_tei_run_fields root m h).2.2.1] at hb
  cases hbe : bodyElems root with
  | nil => rw [hbe] at hb; simp at hb
  | cons b rest =>
      rw [hbe] at hb
      obtain ⟨e, rfl⟩ := pbe_paragraph_shape b content hb
      obtain ⟨s, rfl⟩ := gpc_ref_target e t g hs
      exact lstripHash_head s

/-- Claim C10, witness: a citation with target attribute `##b0` parses to
target `b0`, which does not begin with '#'. -/
theorem c10_witness :
    parse_tei_run wDoc10 = Except.ok wModel10 ∧
    ("b0" : String).data.head? ≠ some '#' :=
  ⟨rfl,
   c10_citation_target_no_hash wDoc10 wModel10 [Span.ref "X" "b0"] "X" "b0"
     rfl (List.Mem.head _) (List.Mem.head _)⟩

end TeiToOdf
